import Mathlib

/-!
# Go-lang1: users and daily task quota over a relational store

A shallow embedding of `main.go`.  The relational store behind `*sql.DB` is an
explicit state (`DB`): the three tables of the schema, the two `serial`
counters and a log of the statements issued so far.  A statement can fail for
reasons the program cannot see (lost connection, constraint violation, scan
error); such a failure is an input of the operation (`Faults`), and the Go
code's `if err != nil` branches are kept.  Go's `error` is `Option GoError`,
`nil` being `none`.  Dates are the strings the handler produces
(`YYYY-MM-DD`), one string per calendar day.
-/

set_option linter.dupNamespace false

namespace GoLang1

/-! ## Data model -/

/-- Struct `User` of `main.go`; also a row of `users(id, name, email)`. -/
structure User where
  ID : Int
  Name : String
  Email : String
deriving DecidableEq

/-- Struct `Task` of `main.go`; also a row of `tasks(id, username, task, date)`. -/
structure Task where
  ID : Int
  Username : String
  Task : String
  Date : String
deriving DecidableEq

/-- One row of `user_limits(username primary key, max_tasks)`. -/
structure UserLimit where
  username : String
  max_tasks : Int
deriving DecidableEq

/-- The statements `main.go` sends to the store. -/
inductive Stmt where
  | insertUser (name email : String)
  | countTasks (username date : String)
  | selectMaxTasks (username : String)
  | insertTask (username task date : String)
deriving DecidableEq

/-- Values of Go's `error` interface that occur in `main.go`. -/
inductive GoError where
  -- the value `sql.ErrNoRows`, returned by `Row.Scan` on an empty result
  | ErrNoRows
  -- any other failure the driver reports for a statement
  | storage (msg : String)
  -- an error built by `fmt.Errorf`
  | Errorf (msg : String)
deriving DecidableEq

/-- The `Error()` method. -/
def GoError.Error : GoError → String
  | .ErrNoRows => "sql: no rows in result set"
  | .storage msg => msg
  | .Errorf msg => msg

/-- State of the store reached through `*sql.DB`. -/
structure DB where
  users : List User
  tasks : List Task
  user_limits : List UserLimit
  users_id_seq : Int
  tasks_id_seq : Int
  -- statements issued so far, oldest first
  log : List Stmt
deriving DecidableEq

/-- Failures injected into the statements of one repository call: `none` lets
the statement run, `some msg` makes the driver report `msg`. -/
structure Faults where
  count : Option String
  limit : Option String
  insert : Option String
deriving DecidableEq

/-- No statement fails. -/
def Faults.none : Faults := ⟨Option.none, Option.none, Option.none⟩

/-! ## Statements -/

/-- Number of rows of `tasks` with the given username and date:
`SELECT COUNT(*) FROM tasks WHERE username=$1 AND date=$2`. -/
def countTasks (tasks : List Task) (username date : String) : Nat :=
  tasks.countP (fun t => decide (t.Username = username ∧ t.Date = date))

/-- Result of `SELECT max_tasks FROM user_limits WHERE username=$1` as
`QueryRow` reads it: the first selected row, which under the primary key on
`username` is the only one. -/
def maxTasksOf (limits : List UserLimit) (username : String) : Option Int :=
  (limits.find? (fun l => decide (l.username = username))).map UserLimit.max_tasks

/-- Number of rows of `users` with the given name and email. -/
def countUsers (users : List User) (name email : String) : Nat :=
  users.countP (fun u => decide (u.Name = name ∧ u.Email = email))

/-- The call `DB.Exec` on `INSERT INTO users (name, email) VALUES ($1, $2)`. -/
def DB.insertUser (db : DB) (fault : Option String) (name email : String) :
    DB × Option GoError :=
  let db1 := { db with log := db.log ++ [Stmt.insertUser name email] }
  match fault with
  | some msg => (db1, some (GoError.storage msg))
  | Option.none =>
    ({ db1 with users := db1.users ++ [⟨db1.users_id_seq + 1, name, email⟩],
                users_id_seq := db1.users_id_seq + 1 }, Option.none)

/-- The call `DB.QueryRow(...).Scan(&taskCount)` on the counting statement. -/
def DB.queryTaskCount (db : DB) (fault : Option String) (username date : String) :
    DB × Except GoError Int :=
  let db1 := { db with log := db.log ++ [Stmt.countTasks username date] }
  match fault with
  | some msg => (db1, Except.error (GoError.storage msg))
  | Option.none => (db1, Except.ok (countTasks db1.tasks username date : Int))

/-- The call `DB.QueryRow(...).Scan(&maxTasks)` on the quota lookup. -/
def DB.queryMaxTasks (db : DB) (fault : Option String) (username : String) :
    DB × Except GoError Int :=
  let db1 := { db with log := db.log ++ [Stmt.selectMaxTasks username] }
  match fault with
  | some msg => (db1, Except.error (GoError.storage msg))
  | Option.none =>
    match maxTasksOf db1.user_limits username with
    | Option.none => (db1, Except.error GoError.ErrNoRows)
    | some n => (db1, Except.ok n)

/-- The call `DB.Exec` on
`INSERT INTO tasks (username, task, date) VALUES ($1, $2, $3)`. -/
def DB.insertTask (db : DB) (fault : Option String) (username task date : String) :
    DB × Option GoError :=
  let db1 := { db with log := db.log ++ [Stmt.insertTask username task date] }
  match fault with
  | some msg => (db1, some (GoError.storage msg))
  | Option.none =>
    ({ db1 with tasks := db1.tasks ++ [⟨db1.tasks_id_seq + 1, username, task, date⟩],
                tasks_id_seq := db1.tasks_id_seq + 1 }, Option.none)

/-! ## Repositories -/

/-- `func (r *UserRepo) CreateUser(user *User) error`. -/
def UserRepo.CreateUser (fault : Option String) (db : DB) (user : User) :
    DB × Option GoError :=
  db.insertUser fault user.Name user.Email

/-- The error of line 72: `fmt.Errorf("task limit reached for user %s", username)`. -/
def limitReached (username : String) : GoError :=
  GoError.Errorf ("task limit reached for user " ++ username)

/-- `func (r *TaskRepo) AddTask(username, task, date string) error`. -/
def TaskRepo.AddTask (fl : Faults) (db : DB) (username task date : String) :
    DB × Option GoError :=
  match db.queryTaskCount fl.count username date with
  | (db1, Except.error err) => (db1, some err)
  | (db1, Except.ok taskCount) =>
    match db1.queryMaxTasks fl.limit username with
    | (db2, Except.error err) => (db2, some err)
    | (db2, Except.ok maxTasks) =>
      if taskCount ≥ maxTasks then
        (db2, some (limitReached username))
      else
        db2.insertTask fl.insert username task date

/-! ## HTTP responses -/

/-- The map `http.Header`, for fields holding one value. -/
structure Header where
  fields : List (String × String)
deriving DecidableEq

/-- `Header.Set`: replaces the value of the field. -/
def Header.Set (h : Header) (key value : String) : Header :=
  ⟨(key, value) :: h.fields.filter (fun p => decide (p.1 ≠ key))⟩

/-- `Header.Get`: the value of the field, `""` when it is not set. -/
def Header.Get (h : Header) (key : String) : String :=
  match h.fields.find? (fun p => decide (p.1 = key)) with
  | some p => p.2
  | Option.none => ""

/-- State of an `http.ResponseWriter`: the header map handlers edit, and what
has gone out on the wire (status line, header fields as they were when the
status was written, body). -/
structure ResponseWriter where
  header : Header
  wroteHeader : Bool
  status : Nat
  sent : Header
  body : String
deriving DecidableEq

/-- The writer the server hands to a handler for a new request. -/
def ResponseWriter.fresh : ResponseWriter := ⟨⟨[]⟩, false, 0, ⟨[]⟩, ""⟩

/-- `w.Header().Set(key, value)`. -/
def ResponseWriter.SetHeader (w : ResponseWriter) (key value : String) : ResponseWriter :=
  { w with header := w.header.Set key value }

/-- `w.WriteHeader(code)`: the first call fixes the status and the header
fields that are sent; later calls have no effect. -/
def ResponseWriter.WriteHeader (w : ResponseWriter) (code : Nat) : ResponseWriter :=
  if w.wroteHeader then w
  else { w with wroteHeader := true, status := code, sent := w.header }

def http.StatusOK : Nat := 200
def http.StatusBadRequest : Nat := 400
def http.StatusInternalServerError : Nat := 500

/-- `w.Write(data)`: writes the status 200 first if none was written. -/
def ResponseWriter.Write (w : ResponseWriter) (data : String) : ResponseWriter :=
  let w1 := w.WriteHeader http.StatusOK
  { w1 with body := w1.body ++ data }

/-- `http.Error(w, error, code)` of Go's `net/http`: it resets `Content-Type`
to plain text, sets `X-Content-Type-Options`, writes the status and prints the
message as one line (`fmt.Fprintln`).  The fields newer Go releases also
delete here (`Content-Length` and others) are never set by this program. -/
def http.Error (w : ResponseWriter) (error : String) (code : Nat) : ResponseWriter :=
  let w1 := w.SetHeader "Content-Type" "text/plain; charset=utf-8"
  let w2 := w1.SetHeader "X-Content-Type-Options" "nosniff"
  (w2.WriteHeader code).Write (error ++ "\n")

/-- Output of `json.NewEncoder(w).Encode(map[string]string{"message": msg})`:
the object on one line.  The two messages of `main.go` hold no character that
JSON escapes. -/
def encodeMessage (msg : String) : String :=
  "\x7b\"message\":\"" ++ msg ++ "\"\x7d\n"

/-- The `Content-Type` a client receives. -/
def ResponseWriter.contentType (w : ResponseWriter) : String :=
  w.sent.Get "Content-Type"

/-! ## Handlers -/

/-- Fields of `*http.Request` the program reads. -/
structure Request where
  Method : String
  Path : String
  Body : String
deriving DecidableEq

/-- The local type `request` of the `AddTask` handler. -/
structure request where
  Username : String
  Task : String
deriving DecidableEq

/-- What one request takes from outside the program: the two uses of
`json.NewDecoder(r.Body).Decode` (`none` when `Decode` returns an error; a
field absent from the body is left `""`), the value of
`time.Now().Format("2006-01-02")`, and the failures of the store. -/
structure Env where
  decodeUser : String → Option User
  decodeRequest : String → Option request
  today : String
  faults : Faults

/-- Handlers act on the store and on the response writer. -/
abbrev Handler := DB → ResponseWriter → Request → DB × ResponseWriter

/-- `func (h *UserTaskHandler) CreateUser(w http.ResponseWriter, r *http.Request)`. -/
def UserTaskHandler.CreateUser (env : Env) : Handler := fun db w r =>
  match env.decodeUser r.Body with
  | Option.none => (db, http.Error w "Invalid request payload" http.StatusBadRequest)
  | some user =>
    if user.Name = "" ∨ user.Email = "" then
      (db, http.Error w "Name and email are required" http.StatusBadRequest)
    else
      match UserRepo.CreateUser env.faults.insert db user with
      | (db1, some err) => (db1, http.Error w err.Error http.StatusInternalServerError)
      | (db1, Option.none) =>
        (db1, (w.SetHeader "Content-Type" "application/json").Write
                (encodeMessage "User created successfully"))

/-- `func (h *UserTaskHandler) AddTask(w http.ResponseWriter, r *http.Request)`. -/
def UserTaskHandler.AddTask (env : Env) : Handler := fun db w r =>
  match env.decodeRequest r.Body with
  | Option.none => (db, http.Error w "Invalid request payload" http.StatusBadRequest)
  | some req =>
    if req.Username = "" ∨ req.Task = "" then
      (db, http.Error w "Username and task are required" http.StatusBadRequest)
    else
      match TaskRepo.AddTask env.faults db req.Username req.Task env.today with
      | (db1, some err) => (db1, http.Error w err.Error http.StatusInternalServerError)
      | (db1, Option.none) =>
        (db1, (w.SetHeader "Content-Type" "application/json").Write
                (encodeMessage "Task added successfully"))

/-- `func jsonContentTypeMiddleware(next http.Handler) http.Handler`. -/
def jsonContentTypeMiddleware (next : Handler) : Handler := fun db w r =>
  next db (w.SetHeader "Content-Type" "application/json") r

/-- The router built in `main`: two `POST` routes, each wrapped by the
middleware registered with `router.Use`; `unmatched` is what the `mux` router
does with every other request. -/
def router (env : Env) (unmatched : Handler) : Handler := fun db w r =>
  if r.Path = "/users" ∧ r.Method = "POST" then
    jsonContentTypeMiddleware (UserTaskHandler.CreateUser env) db w r
  else if r.Path = "/tasks" ∧ r.Method = "POST" then
    jsonContentTypeMiddleware (UserTaskHandler.AddTask env) db w r
  else
    unmatched db w r

/-- The handler given to `http.ListenAndServe`: the router wrapped once more. -/
def serve (env : Env) (unmatched : Handler) : Handler :=
  jsonContentTypeMiddleware (router env unmatched)

/-! ## Sequences of calls and interleaved calls -/

/-- Arguments of one `TaskRepo.AddTask` call, with the failures it meets. -/
structure Call where
  username : String
  task : String
  date : String
  faults : Faults
deriving DecidableEq

/-- Calls run one after the other, each starting when the previous returned. -/
def runCalls (db : DB) : List Call → DB
  | [] => db
  | c :: cs => runCalls (TaskRepo.AddTask c.faults db c.username c.task c.date).1 cs

/-- Where a running `AddTask` call stands: before each of its three statements,
or returned. -/
inductive Pc where
  | count
  | limit
  | insert
  | returned (err : Option GoError)
deriving DecidableEq

/-- A running `AddTask` call: its arguments, its program point and its two
local variables. -/
structure Proc where
  call : Call
  pc : Pc
  taskCount : Int
  maxTasks : Int
deriving DecidableEq

/-- A call that has not run any statement yet (Go zeroes the locals). -/
def Proc.start (c : Call) : Proc := ⟨c, Pc.count, 0, 0⟩

/-- One atomic step of a call: the next statement of `AddTask` together with
the local code up to the following statement (the comparison of line 71
belongs to the step of the insert). -/
def Proc.step (db : DB) (p : Proc) : DB × Proc :=
  match p.pc with
  | Pc.count =>
    match db.queryTaskCount p.call.faults.count p.call.username p.call.date with
    | (db1, Except.error err) => (db1, { p with pc := Pc.returned (some err) })
    | (db1, Except.ok n) => (db1, { p with pc := Pc.limit, taskCount := n })
  | Pc.limit =>
    match db.queryMaxTasks p.call.faults.limit p.call.username with
    | (db1, Except.error err) => (db1, { p with pc := Pc.returned (some err) })
    | (db1, Except.ok n) => (db1, { p with pc := Pc.insert, maxTasks := n })
  | Pc.insert =>
    if p.taskCount ≥ p.maxTasks then
      (db, { p with pc := Pc.returned (some (limitReached p.call.username)) })
    else
      match db.insertTask p.call.faults.insert p.call.username p.call.task p.call.date with
      | (db1, err) => (db1, { p with pc := Pc.returned err })
  | Pc.returned _ => (db, p)

/-- Two calls in flight over one store. -/
structure Config where
  db : DB
  first : Proc
  second : Proc
deriving DecidableEq

/-- Runs a schedule: `false` lets the first call take a step, `true` the second. -/
def Config.run (c : Config) : List Bool → Config
  | [] => c
  | false :: s =>
    let r := c.first.step c.db
    Config.run { c with db := r.1, first := r.2 } s
  | true :: s =>
    let r := c.second.step c.db
    Config.run { c with db := r.1, second := r.2 } s

/-- The quota invariant: every (username, date) whose username has a quota row
has at most `max_tasks` task rows. -/
def QuotaInv (db : DB) : Prop :=
  ∀ username date n, maxTasksOf db.user_limits username = some n →
    (countTasks db.tasks username date : Int) ≤ n

/-! ## Sample stores, requests and schedules -/

/-- A store where `bob` has quota 1 and already one task on 2024-05-01. -/
def dbBobFull : DB :=
  ⟨[], [⟨1, "bob", "write report", "2024-05-01"⟩], [⟨"bob", 1⟩], 0, 1, []⟩

/-- A store where `bob` has quota 2 and one task on 2024-05-01. -/
def dbBobOneLeft : DB :=
  ⟨[], [⟨1, "bob", "write report", "2024-05-01"⟩], [⟨"bob", 2⟩], 0, 1, []⟩

/-- A store with no quota row at all. -/
def dbNoLimits : DB := ⟨[], [], [], 0, 0, []⟩

/-- The counting statement fails, the others would run. -/
def countFails : Faults := ⟨some "connection refused", Option.none, Option.none⟩

/-- The schedule that alternates the two calls statement by statement. -/
def alternating : List Bool := [false, true, false, true, false, true]

/-- The default answer `http.NotFound`, standing for the router's handling of
requests that match no route. -/
def notFound : Handler := fun db w _ => (db, http.Error w "404 page not found" 404)

/-- A body that is not JSON. -/
def badBody : String := "name=ann"

/-- The JSON text of a user named `ann`. -/
def annBody : String := "\x7b\"name\":\"ann\",\"email\":\"ann@example.org\"\x7d"

/-- The JSON text of a user without email. -/
def noEmailBody : String := "\x7b\"name\":\"ann\"\x7d"

/-- The JSON text of a task of `bob`. -/
def bobTaskBody : String := "\x7b\"username\":\"bob\",\"task\":\"x\"\x7d"

/-- An environment for the examples: the decoders of `encoding/json` tabulated
on the sample bodies above, a fixed date, and the given failures. -/
def sampleEnv (fl : Faults) : Env where
  decodeUser := fun body =>
    if body = annBody then some ⟨0, "ann", "ann@example.org"⟩
    else if body = noEmailBody then some ⟨0, "ann", ""⟩
    else Option.none
  decodeRequest := fun body =>
    if body = bobTaskBody then some ⟨"bob", "x"⟩ else Option.none
  today := "2024-05-01"
  faults := fl

/-- A store that already holds a user `ann`. -/
def dbWithAnn : DB := ⟨[⟨1, "ann", "ann@example.org"⟩], [], [], 1, 0, []⟩

/-- The writer a handler receives from `serve` for a routed request: the
middleware has run twice on a fresh writer. -/
def routedWriter : ResponseWriter :=
  (ResponseWriter.fresh.SetHeader "Content-Type" "application/json").SetHeader
    "Content-Type" "application/json"

/-! ## Lemmas on the statements -/

theorem countTasks_append_row (tasks : List Task) (i : Int) (u t d username date : String) :
    countTasks (tasks ++ [⟨i, u, t, d⟩]) username date =
      countTasks tasks username date + (if u = username ∧ d = date then 1 else 0) := by
  unfold countTasks
  rw [List.countP_append]
  by_cases h : u = username ∧ d = date
  · simp [List.countP_cons, h]
  · simp [List.countP_cons, h]

theorem countUsers_append_row (users : List User) (i : Int) (n e name email : String) :
    countUsers (users ++ [⟨i, n, e⟩]) name email =
      countUsers users name email + (if n = name ∧ e = email then 1 else 0) := by
  unfold countUsers
  rw [List.countP_append]
  by_cases h : n = name ∧ e = email
  · simp [List.countP_cons, h]
  · simp [List.countP_cons, h]

/-- The lookup finds nothing exactly when `user_limits` has no row for the username. -/
theorem maxTasksOf_eq_none_iff (limits : List UserLimit) (username : String) :
    maxTasksOf limits username = Option.none ↔ ∀ l ∈ limits, l.username ≠ username := by
  simp [maxTasksOf]

/-- What the lookup returns is the `max_tasks` of a row of the username. -/
theorem mem_of_maxTasksOf (limits : List UserLimit) (username : String) (n : Int)
    (h : maxTasksOf limits username = some n) : (⟨username, n⟩ : UserLimit) ∈ limits := by
  unfold maxTasksOf at h
  cases hl : limits.find? (fun l => decide (l.username = username)) with
  | none => rw [hl] at h; cases h
  | some l =>
    rw [hl] at h
    have hmem := List.mem_of_find?_eq_some hl
    have hu := List.find?_some hl
    simp only [decide_eq_true_eq] at hu
    simp only [Option.map_some', Option.some.injEq] at h
    cases l
    simp_all

/-- Under the primary key on `username`, the row of a username is the one the
lookup returns. -/
theorem maxTasksOf_of_mem (limits : List UserLimit) (username : String) (n : Int)
    (hpk : (limits.map UserLimit.username).Nodup)
    (hmem : (⟨username, n⟩ : UserLimit) ∈ limits) : maxTasksOf limits username = some n := by
  induction limits with
  | nil => cases hmem
  | cons l ls ih =>
    simp only [List.map_cons, List.nodup_cons] at hpk
    by_cases hl : l.username = username
    · rcases List.mem_cons.mp hmem with h | h
      · subst h
        simp [maxTasksOf]
      · exfalso
        apply hpk.1
        rw [hl]
        exact List.mem_map.mpr ⟨_, h, rfl⟩
    · rcases List.mem_cons.mp hmem with h | h
      · subst h
        exact absurd rfl hl
      · have := ih hpk.2 h
        simp only [maxTasksOf, List.find?_cons, hl, decide_False] at this ⊢
        exact this

/-- What `AddTask` does when both reads succeed and the count is at the quota. -/
theorem AddTask_reject (fl : Faults) (db : DB) (username task date : String) (n : Int)
    (hc : fl.count = Option.none) (hl : fl.limit = Option.none)
    (hrow : maxTasksOf db.user_limits username = some n)
    (hcount : n ≤ (countTasks db.tasks username date : Int)) :
    TaskRepo.AddTask fl db username task date =
      ({ db with log := db.log ++ [Stmt.countTasks username date, Stmt.selectMaxTasks username] },
        some (limitReached username)) := by
  simp [TaskRepo.AddTask, DB.queryTaskCount, DB.queryMaxTasks, hc, hl, hrow, hcount]

/-- What `AddTask` does when no statement fails and the count is below the quota. -/
theorem AddTask_accept (fl : Faults) (db : DB) (username task date : String) (n : Int)
    (hc : fl.count = Option.none) (hl : fl.limit = Option.none) (hi : fl.insert = Option.none)
    (hrow : maxTasksOf db.user_limits username = some n)
    (hcount : (countTasks db.tasks username date : Int) < n) :
    TaskRepo.AddTask fl db username task date =
      ({ db with
          log := db.log ++ [Stmt.countTasks username date, Stmt.selectMaxTasks username,
                            Stmt.insertTask username task date],
          tasks := db.tasks ++ [⟨db.tasks_id_seq + 1, username, task, date⟩],
          tasks_id_seq := db.tasks_id_seq + 1 }, Option.none) := by
  simp [TaskRepo.AddTask, DB.queryTaskCount, DB.queryMaxTasks, DB.insertTask, hc, hl, hi, hrow,
    hcount]

/-- Every outcome of `AddTask`: the other tables are untouched, and the tasks
table either is untouched and an error is returned, or gains the one row of the
call, in which case the count read was below the quota read. -/
theorem AddTask_effect (fl : Faults) (db : DB) (username task date : String) :
    (TaskRepo.AddTask fl db username task date).1.user_limits = db.user_limits ∧
    (TaskRepo.AddTask fl db username task date).1.users = db.users ∧
    (((TaskRepo.AddTask fl db username task date).1.tasks = db.tasks ∧
        (TaskRepo.AddTask fl db username task date).2 ≠ Option.none) ∨
     ((TaskRepo.AddTask fl db username task date).1.tasks =
          db.tasks ++ [⟨db.tasks_id_seq + 1, username, task, date⟩] ∧
        (TaskRepo.AddTask fl db username task date).2 = Option.none ∧
        ∃ n, maxTasksOf db.user_limits username = some n ∧
          (countTasks db.tasks username date : Int) < n)) := by
  rcases fl with ⟨_ | c, _ | l, _ | i⟩ <;>
    simp only [TaskRepo.AddTask, DB.queryTaskCount, DB.queryMaxTasks, DB.insertTask] <;>
    (try cases hrow : maxTasksOf db.user_limits username) <;>
    simp <;>
    (try split) <;> simp_all

/-- One call keeps the quota invariant, whether it succeeds or fails. -/
theorem QuotaInv_AddTask (fl : Faults) (db : DB) (username task date : String)
    (hinv : QuotaInv db) : QuotaInv (TaskRepo.AddTask fl db username task date).1 := by
  obtain ⟨hlim, _, htasks⟩ := AddTask_effect fl db username task date
  intro u d m hm
  rw [hlim] at hm
  rcases htasks with h | ⟨h, _, n, hn, hlt⟩
  · rw [h.1]
    exact hinv u d m hm
  · rw [h, countTasks_append_row]
    by_cases hud : username = u ∧ date = d
    · obtain ⟨hu, hd⟩ := hud
      subst hu
      subst hd
      rw [hn] at hm
      cases hm
      simp
      omega
    · have := hinv u d m hm
      simp [hud]
      exact this

/-- A sequence of calls keeps the quota table and the quota invariant. -/
theorem QuotaInv_runCalls (calls : List Call) :
    ∀ db : DB, QuotaInv db →
      QuotaInv (runCalls db calls) ∧ (runCalls db calls).user_limits = db.user_limits := by
  induction calls with
  | nil => intro db h; exact ⟨h, rfl⟩
  | cons c cs ih =>
    intro db h
    have h1 := QuotaInv_AddTask c.faults db c.username c.task c.date h
    have h2 := (AddTask_effect c.faults db c.username c.task c.date).1
    obtain ⟨h3, h4⟩ := ih _ h1
    exact ⟨h3, h4.trans h2⟩

/-- A call at or above the quota writes no task row, whatever fails. -/
theorem AddTask_no_insert_at_quota (fl : Faults) (db : DB) (username task date : String)
    (n : Int) (hrow : maxTasksOf db.user_limits username = some n)
    (hcount : n ≤ (countTasks db.tasks username date : Int)) :
    (TaskRepo.AddTask fl db username task date).1.tasks = db.tasks := by
  rcases (AddTask_effect fl db username task date).2.2 with h | ⟨_, _, m, hm, hlt⟩
  · exact h.1
  · rw [hrow] at hm
    cases hm
    omega

/-- Run without interruption, the three steps of a call are `AddTask`. -/
theorem Config_run_alone (db : DB) (c : Call) (p : Proc) :
    (Config.run ⟨db, Proc.start c, p⟩ [false, false, false]).db =
        (TaskRepo.AddTask c.faults db c.username c.task c.date).1 ∧
    (Config.run ⟨db, Proc.start c, p⟩ [false, false, false]).first.pc =
        Pc.returned (TaskRepo.AddTask c.faults db c.username c.task c.date).2 ∧
    (Config.run ⟨db, Proc.start c, p⟩ [false, false, false]).second = p := by
  rcases c with ⟨u, t, d, ⟨_ | fc, _ | fl, _ | fi⟩⟩ <;>
    simp only [Config.run, Proc.step, Proc.start, TaskRepo.AddTask, DB.queryTaskCount,
      DB.queryMaxTasks, DB.insertTask] <;>
    (try cases hrow : maxTasksOf db.user_limits u) <;>
    simp <;>
    (try split) <;> simp_all [Proc.step, DB.insertTask]

/-! ## Claims on `TaskRepo.AddTask` -/

/-- C1, as stated, fails: with `bob` at his quota and the counting statement
failing, `AddTask` returns the driver's error (line 62), not the
limit-reached error. -/
theorem AddTask_at_quota_not_always_limit_error :
    ¬ (∀ (fl : Faults) (db : DB) (username task date : String) (n : Int),
        maxTasksOf db.user_limits username = some n →
        n ≤ (countTasks db.tasks username date : Int) →
        (TaskRepo.AddTask fl db username task date).2 = some (limitReached username) ∧
        (TaskRepo.AddTask fl db username task date).1.tasks = db.tasks) := by
  intro h
  have h1 := (h countFails dbBobFull "bob" "x" "2024-05-01" 1 (by decide) (by decide)).1
  revert h1
  decide

/-- C1 (amended): when `user_limits` has a row for `username` with
`max_tasks = n` and the tasks of (`username`, `date`) number at least `n`,
`AddTask` returns an error and leaves the tasks table unchanged, whatever
fails; a failing count or lookup statement gives that statement's error, and
when neither fails the error is "task limit reached for user " followed by the
username. -/
theorem AddTask_rejects_at_quota (fl : Faults) (db : DB) (username task date : String) (n : Int)
    (hrow : maxTasksOf db.user_limits username = some n)
    (hcount : n ≤ (countTasks db.tasks username date : Int)) :
    (TaskRepo.AddTask fl db username task date).1.tasks = db.tasks ∧
    (TaskRepo.AddTask fl db username task date).2 ≠ Option.none ∧
    (∀ msg, fl.count = some msg →
      (TaskRepo.AddTask fl db username task date).2 = some (GoError.storage msg)) ∧
    (∀ msg, fl.count = Option.none → fl.limit = some msg →
      (TaskRepo.AddTask fl db username task date).2 = some (GoError.storage msg)) ∧
    (fl.count = Option.none → fl.limit = Option.none →
      (TaskRepo.AddTask fl db username task date).2 = some (limitReached username) ∧
      (limitReached username).Error = "task limit reached for user " ++ username) := by
  refine ⟨?_, ?_, ?_, ?_, ?_⟩
  · rcases (AddTask_effect fl db username task date).2.2 with h | ⟨_, _, m, hm, hlt⟩
    · exact h.1
    · rw [hrow] at hm
      cases hm
      omega
  · rcases (AddTask_effect fl db username task date).2.2 with h | ⟨_, _, m, hm, hlt⟩
    · exact h.2
    · rw [hrow] at hm
      cases hm
      omega
  · intro msg hc
    simp [TaskRepo.AddTask, DB.queryTaskCount, hc]
  · intro msg hc hl
    simp [TaskRepo.AddTask, DB.queryTaskCount, DB.queryMaxTasks, hc, hl]
  · intro hc hl
    rw [AddTask_reject fl db username task date n hc hl hrow hcount]
    exact ⟨rfl, rfl⟩

theorem AddTask_rejects_at_quota_witness :
    (TaskRepo.AddTask Faults.none dbBobFull "bob" "x" "2024-05-01").1.tasks = dbBobFull.tasks ∧
    (TaskRepo.AddTask Faults.none dbBobFull "bob" "x" "2024-05-01").2 =
      some (limitReached "bob") :=
  have h := AddTask_rejects_at_quota Faults.none dbBobFull "bob" "x" "2024-05-01" 1
    (by decide) (by decide)
  ⟨h.1, (h.2.2.2.2 rfl rfl).1⟩

/-- C2: when `user_limits` has a row for `username` with `max_tasks = n`, the
tasks of (`username`, `date`) number fewer than `n` and no statement fails,
`AddTask` returns no error, the tasks table becomes the old table plus the one
row (`username`, `task`, `date`), the count of (`username`, `date`) grows by
exactly one and the count of every other pair is unchanged. -/
theorem AddTask_accepts_below_quota (db : DB) (username task date : String) (n : Int)
    (hrow : maxTasksOf db.user_limits username = some n)
    (hcount : (countTasks db.tasks username date : Int) < n) :
    (TaskRepo.AddTask Faults.none db username task date).2 = Option.none ∧
    (TaskRepo.AddTask Faults.none db username task date).1.tasks =
      db.tasks ++ [⟨db.tasks_id_seq + 1, username, task, date⟩] ∧
    countTasks (TaskRepo.AddTask Faults.none db username task date).1.tasks username date =
      countTasks db.tasks username date + 1 ∧
    (∀ u d, ¬ (u = username ∧ d = date) →
      countTasks (TaskRepo.AddTask Faults.none db username task date).1.tasks u d =
        countTasks db.tasks u d) := by
  rw [AddTask_accept Faults.none db username task date n rfl rfl rfl hrow hcount]
  refine ⟨rfl, rfl, ?_, ?_⟩
  · simp [countTasks_append_row]
  · intro u d hne
    have hne2 : ¬ (username = u ∧ date = d) := fun h => hne ⟨h.1.symm, h.2.symm⟩
    simp [countTasks_append_row, hne2]

theorem AddTask_accepts_below_quota_witness :
    (TaskRepo.AddTask Faults.none dbBobOneLeft "bob" "x" "2024-05-01").2 = Option.none ∧
    countTasks (TaskRepo.AddTask Faults.none dbBobOneLeft "bob" "x" "2024-05-01").1.tasks
      "bob" "2024-05-01" = 2 :=
  have h := AddTask_accepts_below_quota dbBobOneLeft "bob" "x" "2024-05-01" 2
    (by decide) (by decide)
  ⟨h.1, h.2.2.1⟩

/-- C3, as stated, fails: with no quota row for `bob` and the counting
statement failing, `AddTask` returns the driver's error of the count (line 62),
which is not the no-rows error of the lookup. -/
theorem AddTask_missing_quota_not_always_no_rows :
    ¬ (∀ (fl : Faults) (db : DB) (username task date : String),
        maxTasksOf db.user_limits username = Option.none →
        (TaskRepo.AddTask fl db username task date).2 = some GoError.ErrNoRows ∧
        (TaskRepo.AddTask fl db username task date).2 ≠ some (limitReached username) ∧
        (TaskRepo.AddTask fl db username task date).1.tasks = db.tasks) := by
  intro h
  have h1 := (h countFails dbNoLimits "bob" "x" "2024-05-01" (by decide)).1
  revert h1
  decide

/-- C3 (amended): when `user_limits` has no row for `username`, `AddTask`
returns an error that is not the limit-reached error and leaves the tasks table
unchanged, whatever fails; a failing count or lookup statement gives that
statement's error, and when neither fails for another reason the error is
`sql.ErrNoRows`, whose text differs from the limit-reached text. -/
theorem AddTask_missing_quota_row (fl : Faults) (db : DB) (username task date : String)
    (hrow : maxTasksOf db.user_limits username = Option.none) :
    (TaskRepo.AddTask fl db username task date).1.tasks = db.tasks ∧
    (TaskRepo.AddTask fl db username task date).2 ≠ Option.none ∧
    (TaskRepo.AddTask fl db username task date).2 ≠ some (limitReached username) ∧
    (∀ msg, fl.count = some msg →
      (TaskRepo.AddTask fl db username task date).2 = some (GoError.storage msg)) ∧
    (∀ msg, fl.count = Option.none → fl.limit = some msg →
      (TaskRepo.AddTask fl db username task date).2 = some (GoError.storage msg)) ∧
    (fl.count = Option.none → fl.limit = Option.none →
      (TaskRepo.AddTask fl db username task date).2 = some GoError.ErrNoRows ∧
      GoError.ErrNoRows.Error ≠ (limitReached username).Error) := by
  refine ⟨?_, ?_, ?_, ?_, ?_, ?_⟩
  · rcases (AddTask_effect fl db username task date).2.2 with h | ⟨_, _, m, hm, _⟩
    · exact h.1
    · rw [hrow] at hm
      cases hm
  · rcases (AddTask_effect fl db username task date).2.2 with h | ⟨_, _, m, hm, _⟩
    · exact h.2
    · rw [hrow] at hm
      cases hm
  · rcases fl with ⟨_ | c, _ | l, i⟩ <;>
      simp [TaskRepo.AddTask, DB.queryTaskCount, DB.queryMaxTasks, hrow, limitReached]
  · intro msg hc
    simp [TaskRepo.AddTask, DB.queryTaskCount, hc]
  · intro msg hc hl
    simp [TaskRepo.AddTask, DB.queryTaskCount, DB.queryMaxTasks, hc, hl]
  · intro hc hl
    refine ⟨?_, ?_⟩
    · simp [TaskRepo.AddTask, DB.queryTaskCount, DB.queryMaxTasks, hc, hl, hrow]
    · intro h
      have h2 := congrArg String.data h
      simp [GoError.Error, limitReached, String.data_append] at h2

theorem AddTask_missing_quota_row_witness :
    (TaskRepo.AddTask Faults.none dbNoLimits "bob" "x" "2024-05-01").1.tasks = dbNoLimits.tasks ∧
    (TaskRepo.AddTask Faults.none dbNoLimits "bob" "x" "2024-05-01").2 =
      some GoError.ErrNoRows :=
  have h := AddTask_missing_quota_row Faults.none dbNoLimits "bob" "x" "2024-05-01" (by decide)
  ⟨h.1, (h.2.2.2.2.2 rfl rfl).1⟩

/-- The quota invariant holds in `dbBobOneLeft`. -/
theorem QuotaInv_dbBobOneLeft : QuotaInv dbBobOneLeft := by
  intro u d n h
  have hle : countTasks dbBobOneLeft.tasks u d ≤ 1 := by
    unfold countTasks
    exact le_trans (List.countP_le_length _) (by decide)
  by_cases hu : u = "bob"
  · subst hu
    have hn : n = 2 := by
      have h2 : maxTasksOf dbBobOneLeft.user_limits "bob" = some 2 := by decide
      rw [h2] at h
      exact (Option.some.inj h).symm
    omega
  · have hne : ¬ ("bob" = u) := fun e => hu e.symm
    simp [maxTasksOf, dbBobOneLeft, hne] at h

/-- C4: with `QuotaInv` holding before, it holds after one `AddTask` call for
every argument triple and every failure pattern, the quota table being left as
it was; hence it holds after every finite sequence of calls run one after the
other; and no call of such a sequence adds a task row when the count of its
(username, date) has reached the username's `max_tasks`. -/
theorem quota_invariant_sequential (db : DB) (hinv : QuotaInv db) :
    (∀ (fl : Faults) (username task date : String),
      QuotaInv (TaskRepo.AddTask fl db username task date).1 ∧
      (TaskRepo.AddTask fl db username task date).1.user_limits = db.user_limits) ∧
    (∀ calls : List Call,
      QuotaInv (runCalls db calls) ∧ (runCalls db calls).user_limits = db.user_limits) ∧
    (∀ (calls : List Call) (fl : Faults) (username task date : String) (n : Int),
      maxTasksOf (runCalls db calls).user_limits username = some n →
      n ≤ (countTasks (runCalls db calls).tasks username date : Int) →
      (TaskRepo.AddTask fl (runCalls db calls) username task date).1.tasks =
        (runCalls db calls).tasks) :=
  ⟨fun fl username task date =>
      ⟨QuotaInv_AddTask fl db username task date hinv,
        (AddTask_effect fl db username task date).1⟩,
    fun calls => QuotaInv_runCalls calls db hinv,
    fun calls fl username task date n hrow hcount =>
      AddTask_no_insert_at_quota fl (runCalls db calls) username task date n hrow hcount⟩

theorem quota_invariant_sequential_witness :
    QuotaInv dbBobOneLeft ∧
    QuotaInv (runCalls dbBobOneLeft
      [⟨"bob", "a", "2024-05-01", Faults.none⟩, ⟨"bob", "b", "2024-05-01", Faults.none⟩,
       ⟨"eve", "c", "2024-05-01", countFails⟩]) :=
  ⟨QuotaInv_dbBobOneLeft,
    ((quota_invariant_sequential dbBobOneLeft QuotaInv_dbBobOneLeft).2.1 _).1⟩

/-- C5: from a store where the count of (`username`, `date`) is
`max_tasks - 1` with `max_tasks ≥ 1`, two calls for that username and date, the
second starting when the first has returned and no statement failing: the
first returns no error and adds its one row, the second returns the
limit-reached error and adds nothing, and the final count is `max_tasks`. -/
theorem two_calls_in_succession (db : DB) (username task1 task2 date : String) (n : Int)
    (hrow : maxTasksOf db.user_limits username = some n) (hn : 1 ≤ n)
    (hcount : (countTasks db.tasks username date : Int) = n - 1) :
    (TaskRepo.AddTask Faults.none db username task1 date).2 = Option.none ∧
    (TaskRepo.AddTask Faults.none db username task1 date).1.tasks =
      db.tasks ++ [⟨db.tasks_id_seq + 1, username, task1, date⟩] ∧
    (TaskRepo.AddTask Faults.none
      (TaskRepo.AddTask Faults.none db username task1 date).1 username task2 date).2 =
      some (limitReached username) ∧
    (limitReached username).Error = "task limit reached for user " ++ username ∧
    (TaskRepo.AddTask Faults.none
      (TaskRepo.AddTask Faults.none db username task1 date).1 username task2 date).1.tasks =
      (TaskRepo.AddTask Faults.none db username task1 date).1.tasks ∧
    (countTasks (TaskRepo.AddTask Faults.none
      (TaskRepo.AddTask Faults.none db username task1 date).1 username task2 date).1.tasks
        username date : Int) = n := by
  have _ := hn
  have hlt : (countTasks db.tasks username date : Int) < n := by omega
  have hc2 : n ≤ (countTasks (db.tasks ++ [⟨db.tasks_id_seq + 1, username, task1, date⟩])
      username date : Int) := by
    rw [countTasks_append_row]
    simp
    omega
  have h1 := AddTask_accept Faults.none db username task1 date n rfl rfl rfl hrow hlt
  have h2 := AddTask_reject Faults.none
    { db with
        log := db.log ++ [Stmt.countTasks username date, Stmt.selectMaxTasks username,
                          Stmt.insertTask username task1 date],
        tasks := db.tasks ++ [⟨db.tasks_id_seq + 1, username, task1, date⟩],
        tasks_id_seq := db.tasks_id_seq + 1 } username task2 date n rfl rfl hrow hc2
  rw [h1]
  dsimp only
  rw [h2]
  refine ⟨rfl, rfl, rfl, rfl, rfl, ?_⟩
  simp [countTasks_append_row]
  omega

theorem two_calls_in_succession_witness :
    (TaskRepo.AddTask Faults.none dbBobOneLeft "bob" "a" "2024-05-01").2 = Option.none ∧
    (TaskRepo.AddTask Faults.none
      (TaskRepo.AddTask Faults.none dbBobOneLeft "bob" "a" "2024-05-01").1
        "bob" "b" "2024-05-01").2 = some (limitReached "bob") :=
  have h := two_calls_in_succession dbBobOneLeft "bob" "a" "b" "2024-05-01" 2
    (by decide) (by decide) (by decide)
  ⟨h.1, h.2.2.1⟩

/-- C10: `AddTask` run as three atomic steps (count, quota lookup, insert;
run without interruption they are the sequential `AddTask`).  From a store
satisfying the quota invariant where the count of (`username`, `date`) is
`max_tasks - 1`, some interleaving of two calls for that username and date has
both calls read a count below the limit, both insert and both return no
error, leaving the count at `max_tasks + 1`, so that the invariant is broken. -/
theorem check_then_act_race (db : DB) (username task1 task2 date : String) (n : Int)
    (hinv : QuotaInv db)
    (hrow : maxTasksOf db.user_limits username = some n)
    (hcount : (countTasks db.tasks username date : Int) = n - 1) :
    (∀ (c : Call) (p : Proc),
      (Config.run ⟨db, Proc.start c, p⟩ [false, false, false]).db =
        (TaskRepo.AddTask c.faults db c.username c.task c.date).1 ∧
      (Config.run ⟨db, Proc.start c, p⟩ [false, false, false]).first.pc =
        Pc.returned (TaskRepo.AddTask c.faults db c.username c.task c.date).2) ∧
    ∃ schedule : List Bool, ∃ c : Config,
      c = Config.run ⟨db, Proc.start ⟨username, task1, date, Faults.none⟩,
                          Proc.start ⟨username, task2, date, Faults.none⟩⟩ schedule ∧
      c.first.taskCount < c.first.maxTasks ∧ c.second.taskCount < c.second.maxTasks ∧
      c.first.pc = Pc.returned Option.none ∧ c.second.pc = Pc.returned Option.none ∧
      c.db.tasks = db.tasks ++ [⟨db.tasks_id_seq + 1, username, task1, date⟩,
                                ⟨db.tasks_id_seq + 2, username, task2, date⟩] ∧
      c.db.user_limits = db.user_limits ∧
      (countTasks c.db.tasks username date : Int) = n + 1 ∧
      ¬ QuotaInv c.db := by
  have _ := hinv
  have hlt : (countTasks db.tasks username date : Int) < n := by omega
  have hnot : ¬ (n ≤ (countTasks db.tasks username date : Int)) := by omega
  refine ⟨fun c p => ⟨(Config_run_alone db c p).1, (Config_run_alone db c p).2.1⟩, ?_⟩
  refine ⟨alternating, _, rfl, ?_⟩
  have hrun : Config.run ⟨db, Proc.start ⟨username, task1, date, Faults.none⟩,
      Proc.start ⟨username, task2, date, Faults.none⟩⟩ alternating =
      ⟨{ db with
          log := db.log ++ [Stmt.countTasks username date, Stmt.countTasks username date,
            Stmt.selectMaxTasks username, Stmt.selectMaxTasks username,
            Stmt.insertTask username task1 date, Stmt.insertTask username task2 date],
          tasks := db.tasks ++ [⟨db.tasks_id_seq + 1, username, task1, date⟩,
                                ⟨db.tasks_id_seq + 2, username, task2, date⟩],
          tasks_id_seq := db.tasks_id_seq + 2 },
        ⟨⟨username, task1, date, Faults.none⟩, Pc.returned Option.none,
          countTasks db.tasks username date, n⟩,
        ⟨⟨username, task2, date, Faults.none⟩, Pc.returned Option.none,
          countTasks db.tasks username date, n⟩⟩ := by
    simp [alternating, Config.run, Proc.step, Proc.start, Faults.none, DB.queryTaskCount,
      DB.queryMaxTasks, DB.insertTask, hrow, hnot]
    ring
  rw [hrun]
  refine ⟨hlt, hlt, rfl, rfl, rfl, rfl, ?_, ?_⟩
  · have h2 : db.tasks ++ [(⟨db.tasks_id_seq + 1, username, task1, date⟩ : Task),
        ⟨db.tasks_id_seq + 2, username, task2, date⟩] =
        (db.tasks ++ [⟨db.tasks_id_seq + 1, username, task1, date⟩]) ++
          [⟨db.tasks_id_seq + 2, username, task2, date⟩] := by simp
    simp only [h2, countTasks_append_row]
    simp
    omega
  · intro hq
    have h3 := hq username date n hrow
    have h2 : db.tasks ++ [(⟨db.tasks_id_seq + 1, username, task1, date⟩ : Task),
        ⟨db.tasks_id_seq + 2, username, task2, date⟩] =
        (db.tasks ++ [⟨db.tasks_id_seq + 1, username, task1, date⟩]) ++
          [⟨db.tasks_id_seq + 2, username, task2, date⟩] := by simp
    simp only [h2, countTasks_append_row] at h3
    simp at h3
    omega

theorem check_then_act_race_witness :
    ∃ schedule : List Bool, ∃ c : Config,
      c = Config.run ⟨dbBobOneLeft, Proc.start ⟨"bob", "a", "2024-05-01", Faults.none⟩,
                          Proc.start ⟨"bob", "b", "2024-05-01", Faults.none⟩⟩ schedule ∧
      c.first.pc = Pc.returned Option.none ∧ c.second.pc = Pc.returned Option.none ∧
      (countTasks c.db.tasks "bob" "2024-05-01" : Int) = 3 :=
  have h := (check_then_act_race dbBobOneLeft "bob" "a" "b" "2024-05-01" 2
    QuotaInv_dbBobOneLeft (by decide) (by decide)).2
  match h with
  | ⟨s, c, hc, _, _, h1, h2, _, _, h3, _⟩ => ⟨s, c, hc, h1, h2, h3⟩

/-! ## Claims on the handlers -/

/-- On a writer nothing was written to, `http.Error` fixes the status and the
body is the message as one line. -/
theorem unwritten_Error (w : ResponseWriter) (hw : w.wroteHeader = false) (hb : w.body = "")
    (msg : String) (code : Nat) :
    (http.Error w msg code).status = code ∧ (http.Error w msg code).body = msg ++ "\n" := by
  simp [http.Error, ResponseWriter.Write, ResponseWriter.WriteHeader, ResponseWriter.SetHeader,
    hw, hb]

/-- On a writer nothing was written to, a first `Write` goes out with status 200. -/
theorem unwritten_Write (w : ResponseWriter) (hw : w.wroteHeader = false) (hb : w.body = "")
    (msg : String) :
    ((w.SetHeader "Content-Type" "application/json").Write msg).status = 200 ∧
    ((w.SetHeader "Content-Type" "application/json").Write msg).body = msg ∧
    ((w.SetHeader "Content-Type" "application/json").Write msg).contentType =
      "application/json" := by
  simp [ResponseWriter.Write, ResponseWriter.WriteHeader, ResponseWriter.SetHeader,
    ResponseWriter.contentType, Header.Set, Header.Get, http.StatusOK, hw, hb]

/-- Calling the user repository always issues a statement. -/
theorem CreateUser_repo_logs (fault : Option String) (db : DB) (user : User) :
    (UserRepo.CreateUser fault db user).1.log =
      db.log ++ [Stmt.insertUser user.Name user.Email] := by
  cases fault <;> simp [UserRepo.CreateUser, DB.insertUser]

/-- C6: when the body decodes to a user whose name or email is empty, the
`CreateUser` handler answers with `http.Error`, status 400 and the message
"Name and email are required", and the store is exactly as before: the users
table is unchanged and no statement was issued, whereas every call of
`UserRepo.CreateUser` issues one. -/
theorem CreateUser_rejects_missing_fields (env : Env) (db : DB) (w : ResponseWriter)
    (r : Request) (user : User) (hw : w.wroteHeader = false) (hb : w.body = "")
    (hdec : env.decodeUser r.Body = some user)
    (hempty : user.Name = "" ∨ user.Email = "") :
    UserTaskHandler.CreateUser env db w r =
      (db, http.Error w "Name and email are required" http.StatusBadRequest) ∧
    (UserTaskHandler.CreateUser env db w r).2.status = 400 ∧
    (UserTaskHandler.CreateUser env db w r).2.body = "Name and email are required" ++ "\n" ∧
    (UserTaskHandler.CreateUser env db w r).1.users = db.users ∧
    (UserTaskHandler.CreateUser env db w r).1.log = db.log ∧
    (∀ fault u, (UserRepo.CreateUser fault db u).1.log ≠ db.log) := by
  have h : UserTaskHandler.CreateUser env db w r =
      (db, http.Error w "Name and email are required" http.StatusBadRequest) := by
    simp [UserTaskHandler.CreateUser, hdec, hempty]
  refine ⟨h, ?_, ?_, ?_, ?_, ?_⟩
  · rw [h]
    exact (unwritten_Error w hw hb _ _).1
  · rw [h]
    exact (unwritten_Error w hw hb _ _).2
  · rw [h]
  · rw [h]
  · intro fault u
    rw [CreateUser_repo_logs]
    simp

theorem CreateUser_rejects_missing_fields_witness :
    (UserTaskHandler.CreateUser (sampleEnv Faults.none) dbWithAnn routedWriter
        ⟨"POST", "/users", noEmailBody⟩).2.status = 400 ∧
    (UserTaskHandler.CreateUser (sampleEnv Faults.none) dbWithAnn routedWriter
        ⟨"POST", "/users", noEmailBody⟩).1.users = dbWithAnn.users :=
  have h := CreateUser_rejects_missing_fields (sampleEnv Faults.none) dbWithAnn
    routedWriter ⟨"POST", "/users", noEmailBody⟩ ⟨0, "ann", ""⟩ rfl rfl (by decide)
    (Or.inr rfl)
  ⟨h.2.1, h.2.2.2.1⟩

/-- C7, as stated, fails: when the users table already holds a row for
(`ann`, `ann@example.org`), creating that user again succeeds and a read then
shows two matching rows, not exactly one. -/
theorem CreateUser_not_always_one_matching_row :
    ¬ (∀ (env : Env) (db : DB) (r : Request) (user : User),
        env.decodeUser r.Body = some user → user.Name ≠ "" → user.Email ≠ "" →
        env.faults.insert = Option.none →
        (UserTaskHandler.CreateUser env db ResponseWriter.fresh r).2.status = 200 ∧
        (UserTaskHandler.CreateUser env db ResponseWriter.fresh r).2.body =
          encodeMessage "User created successfully" ∧
        countUsers (UserTaskHandler.CreateUser env db ResponseWriter.fresh r).1.users
          user.Name user.Email = 1) := by
  intro h
  have h1 := (h (sampleEnv Faults.none) dbWithAnn ⟨"POST", "/users", annBody⟩
    ⟨0, "ann", "ann@example.org"⟩ (by decide) (by decide) (by decide) (by decide)).2.2
  revert h1
  decide

/-- C7 (amended): for a body decoding to a user with non-empty name and email,
and an insert that does not fail, the `CreateUser` handler answers 200 with the
JSON object whose `message` is "User created successfully", the users table
gains exactly one row, which carries that name and email, and a read
afterwards shows one more row matching (name, email) than before: exactly one
when none matched before. -/
theorem CreateUser_adds_one_matching_row (env : Env) (db : DB) (w : ResponseWriter)
    (r : Request) (user : User) (hw : w.wroteHeader = false) (hb : w.body = "")
    (hdec : env.decodeUser r.Body = some user) (hname : user.Name ≠ "")
    (hemail : user.Email ≠ "") (hins : env.faults.insert = Option.none) :
    (UserTaskHandler.CreateUser env db w r).2.status = 200 ∧
    (UserTaskHandler.CreateUser env db w r).2.body =
      encodeMessage "User created successfully" ∧
    (UserTaskHandler.CreateUser env db w r).1.users =
      db.users ++ [⟨db.users_id_seq + 1, user.Name, user.Email⟩] ∧
    countUsers (UserTaskHandler.CreateUser env db w r).1.users user.Name user.Email =
      countUsers db.users user.Name user.Email + 1 ∧
    (countUsers db.users user.Name user.Email = 0 →
      countUsers (UserTaskHandler.CreateUser env db w r).1.users user.Name user.Email = 1) := by
  have h : UserTaskHandler.CreateUser env db w r =
      ({ db with
          log := db.log ++ [Stmt.insertUser user.Name user.Email],
          users := db.users ++ [⟨db.users_id_seq + 1, user.Name, user.Email⟩],
          users_id_seq := db.users_id_seq + 1 },
        (w.SetHeader "Content-Type" "application/json").Write
          (encodeMessage "User created successfully")) := by
    simp [UserTaskHandler.CreateUser, UserRepo.CreateUser, DB.insertUser, hdec, hname, hemail,
      hins]
  rw [h]
  refine ⟨(unwritten_Write w hw hb _).1, (unwritten_Write w hw hb _).2.1, rfl, ?_, ?_⟩
  · simp [countUsers_append_row]
  · intro h0
    simp [countUsers_append_row, h0]

theorem CreateUser_adds_one_matching_row_witness :
    (UserTaskHandler.CreateUser (sampleEnv Faults.none) dbNoLimits routedWriter
        ⟨"POST", "/users", annBody⟩).2.status = 200 ∧
    countUsers (UserTaskHandler.CreateUser (sampleEnv Faults.none) dbNoLimits
        routedWriter ⟨"POST", "/users", annBody⟩).1.users "ann" "ann@example.org" = 1 :=
  have h := CreateUser_adds_one_matching_row (sampleEnv Faults.none) dbNoLimits routedWriter
    ⟨"POST", "/users", annBody⟩ ⟨0, "ann", "ann@example.org"⟩ rfl rfl (by decide) (by decide)
    (by decide) (by decide)
  ⟨h.1, h.2.2.2.2 (by decide)⟩

theorem routed_Error (msg : String) (code : Nat) :
    (http.Error routedWriter msg code).status = code ∧
    (http.Error routedWriter msg code).contentType = "text/plain; charset=utf-8" := by
  refine ⟨?_, ?_⟩
  · simp [http.Error, ResponseWriter.Write, ResponseWriter.WriteHeader,
      ResponseWriter.SetHeader, ResponseWriter.fresh, routedWriter]
  · simp [http.Error, ResponseWriter.Write, ResponseWriter.WriteHeader,
      ResponseWriter.SetHeader, ResponseWriter.fresh, routedWriter, ResponseWriter.contentType,
      Header.Set, Header.Get]

theorem routed_Write (msg : String) :
    ((routedWriter.SetHeader "Content-Type" "application/json").Write msg).status = 200 ∧
    ((routedWriter.SetHeader "Content-Type" "application/json").Write msg).contentType =
      "application/json" := by
  refine ⟨?_, ?_⟩
  · simp [ResponseWriter.Write, ResponseWriter.WriteHeader, ResponseWriter.SetHeader,
      ResponseWriter.fresh, routedWriter, http.StatusOK]
  · simp [ResponseWriter.Write, ResponseWriter.WriteHeader, ResponseWriter.SetHeader,
      ResponseWriter.fresh, routedWriter, ResponseWriter.contentType, Header.Set, Header.Get]

/-- C8, as stated, fails: a `POST /users` whose body is not JSON is answered
through `http.Error`, which resets the header the middleware had set, and the
response goes out as `text/plain; charset=utf-8`. -/
theorem error_response_not_json_content_type :
    ¬ (∀ (env : Env) (unmatched : Handler) (db : DB) (r : Request),
        r.Method = "POST" → (r.Path = "/users" ∨ r.Path = "/tasks") →
        (serve env unmatched db ResponseWriter.fresh r).2.contentType = "application/json") := by
  intro h
  have h1 := h (sampleEnv Faults.none) notFound dbNoLimits ⟨"POST", "/users", badBody⟩
    (by decide) (by decide)
  revert h1
  decide

/-- C8 (amended): `jsonContentTypeMiddleware` sets `Content-Type` to
`application/json` before the handler runs, and for `POST /users` and
`POST /tasks` the response is either a 200 with `Content-Type`
`application/json`, or a 400 or 500 written through `http.Error` with
`Content-Type` `text/plain; charset=utf-8`. -/
theorem response_content_type (env : Env) (unmatched : Handler) (db : DB) (r : Request)
    (hm : r.Method = "POST") (hp : r.Path = "/users" ∨ r.Path = "/tasks") :
    (∀ (next : Handler) (w : ResponseWriter),
      jsonContentTypeMiddleware next db w r =
        next db (w.SetHeader "Content-Type" "application/json") r ∧
      (w.SetHeader "Content-Type" "application/json").header.Get "Content-Type" =
        "application/json") ∧
    (((serve env unmatched db ResponseWriter.fresh r).2.status = 200 ∧
        (serve env unmatched db ResponseWriter.fresh r).2.contentType = "application/json") ∨
     (((serve env unmatched db ResponseWriter.fresh r).2.status = 400 ∨
        (serve env unmatched db ResponseWriter.fresh r).2.status = 500) ∧
        (serve env unmatched db ResponseWriter.fresh r).2.contentType =
          "text/plain; charset=utf-8")) := by
  refine ⟨fun next w => ⟨rfl, ?_⟩, ?_⟩
  · simp [ResponseWriter.SetHeader, Header.Set, Header.Get]
  · have hE4 := routed_Error
    have hW := routed_Write
    rcases hp with hp | hp
    · have hs : serve env unmatched db ResponseWriter.fresh r =
          UserTaskHandler.CreateUser env db routedWriter r := by
        simp [serve, router, jsonContentTypeMiddleware, hp, hm, routedWriter]
      rw [hs]
      unfold UserTaskHandler.CreateUser
      cases env.decodeUser r.Body with
      | none => exact Or.inr ⟨Or.inl (hE4 _ _).1, (hE4 _ _).2⟩
      | some user =>
        dsimp only
        split
        · exact Or.inr ⟨Or.inl (hE4 _ _).1, (hE4 _ _).2⟩
        · split
          · exact Or.inr ⟨Or.inr (hE4 _ _).1, (hE4 _ _).2⟩
          · exact Or.inl (hW _)
    · have hne : ¬ (r.Path = "/users") := by
        rw [hp]
        decide
      have hs : serve env unmatched db ResponseWriter.fresh r =
          UserTaskHandler.AddTask env db routedWriter r := by
        simp [serve, router, jsonContentTypeMiddleware, hp, hm, routedWriter]
      rw [hs]
      unfold UserTaskHandler.AddTask
      cases env.decodeRequest r.Body with
      | none => exact Or.inr ⟨Or.inl (hE4 _ _).1, (hE4 _ _).2⟩
      | some req =>
        dsimp only
        split
        · exact Or.inr ⟨Or.inl (hE4 _ _).1, (hE4 _ _).2⟩
        · split
          · exact Or.inr ⟨Or.inr (hE4 _ _).1, (hE4 _ _).2⟩
          · exact Or.inl (hW _)

theorem response_content_type_witness :
    (serve (sampleEnv Faults.none) notFound dbNoLimits ResponseWriter.fresh
        ⟨"POST", "/users", annBody⟩).2.contentType = "application/json" :=
  have h := (response_content_type (sampleEnv Faults.none) notFound dbNoLimits
    ⟨"POST", "/users", annBody⟩ rfl (Or.inl rfl)).2
  h.elim (fun h1 => h1.2) (fun h2 => absurd h2.2 (by decide))

/-- C9, as stated, fails: with `bob` at his quota the body of the 500 response
is not the error's text but that text followed by a line feed, as
`http.Error` prints it. -/
theorem error_body_not_bare_text :
    ¬ (∀ (env : Env) (db : DB) (r : Request) (req : request) (e : GoError),
        env.decodeRequest r.Body = some req → req.Username ≠ "" → req.Task ≠ "" →
        (TaskRepo.AddTask env.faults db req.Username req.Task env.today).2 = some e →
        (UserTaskHandler.AddTask env db ResponseWriter.fresh r).2.status = 500 ∧
        (UserTaskHandler.AddTask env db ResponseWriter.fresh r).2.body = e.Error) := by
  intro h
  have h1 := (h (sampleEnv Faults.none) dbBobFull ⟨"POST", "/tasks", bobTaskBody⟩
    ⟨"bob", "x"⟩ (limitReached "bob") (by decide) (by decide) (by decide) (by decide)).2
  revert h1
  decide

/-- C9 (amended): for a body decoding to a non-empty username and a non-empty
task, if `TaskRepo.AddTask` returns an error `e` the response has status 500
and its body is `e`'s text followed by a line feed; so when the quota of the
username is reached (and the two reads do not fail) the response is a 500 with
body "task limit reached for user U" and a line feed, the status of any
storage failure; and the response is a 200 with the JSON object whose `message`
is "Task added successfully" exactly when the repository call returns no
error. -/
theorem AddTask_handler_surfaces_errors (env : Env) (db : DB) (w : ResponseWriter)
    (r : Request) (req : request) (hw : w.wroteHeader = false) (hb : w.body = "")
    (hdec : env.decodeRequest r.Body = some req) (hu : req.Username ≠ "")
    (ht : req.Task ≠ "") :
    (UserTaskHandler.AddTask env db w r).1 =
      (TaskRepo.AddTask env.faults db req.Username req.Task env.today).1 ∧
    (∀ e, (TaskRepo.AddTask env.faults db req.Username req.Task env.today).2 = some e →
      (UserTaskHandler.AddTask env db w r).2.status = 500 ∧
      (UserTaskHandler.AddTask env db w r).2.body = e.Error ++ "\n") ∧
    (∀ n, env.faults.count = Option.none → env.faults.limit = Option.none →
      maxTasksOf db.user_limits req.Username = some n →
      n ≤ (countTasks db.tasks req.Username env.today : Int) →
      (UserTaskHandler.AddTask env db w r).2.status = 500 ∧
      (UserTaskHandler.AddTask env db w r).2.body =
        "task limit reached for user " ++ req.Username ++ "\n") ∧
    (((UserTaskHandler.AddTask env db w r).2.status = 200 ∧
        (UserTaskHandler.AddTask env db w r).2.body =
          encodeMessage "Task added successfully") ↔
      (TaskRepo.AddTask env.faults db req.Username req.Task env.today).2 = Option.none) := by
  have herr : ∀ e, (TaskRepo.AddTask env.faults db req.Username req.Task env.today).2 = some e →
      UserTaskHandler.AddTask env db w r =
        ((TaskRepo.AddTask env.faults db req.Username req.Task env.today).1,
          http.Error w e.Error http.StatusInternalServerError) := by
    intro e he
    unfold UserTaskHandler.AddTask
    rcases hres : TaskRepo.AddTask env.faults db req.Username req.Task env.today with ⟨d, o⟩
    rw [hres] at he
    simp only at he
    subst he
    simp [hdec, hu, ht, hres]
  have hok : (TaskRepo.AddTask env.faults db req.Username req.Task env.today).2 = Option.none →
      UserTaskHandler.AddTask env db w r =
        ((TaskRepo.AddTask env.faults db req.Username req.Task env.today).1,
          (w.SetHeader "Content-Type" "application/json").Write
            (encodeMessage "Task added successfully")) := by
    intro he
    unfold UserTaskHandler.AddTask
    rcases hres : TaskRepo.AddTask env.faults db req.Username req.Task env.today with ⟨d, o⟩
    rw [hres] at he
    simp only at he
    subst he
    simp [hdec, hu, ht, hres]
  refine ⟨?_, ?_, ?_, ?_⟩
  · cases hres : (TaskRepo.AddTask env.faults db req.Username req.Task env.today).2 with
    | none => rw [hok hres]
    | some e => rw [herr e hres]
  · intro e he
    rw [herr e he]
    exact unwritten_Error w hw hb _ _
  · intro n hc hl hrow hcount
    have he : (TaskRepo.AddTask env.faults db req.Username req.Task env.today).2 =
        some (limitReached req.Username) := by
      rw [AddTask_reject env.faults db req.Username req.Task env.today n hc hl hrow hcount]
    rw [herr _ he]
    exact unwritten_Error w hw hb _ _
  · constructor
    · intro hresp
      cases hres : (TaskRepo.AddTask env.faults db req.Username req.Task env.today).2 with
      | none => rfl
      | some e =>
        rw [herr e hres] at hresp
        have := (unwritten_Error w hw hb e.Error http.StatusInternalServerError).1
        rw [this] at hresp
        exact absurd hresp.1 (by decide)
    · intro he
      rw [hok he]
      exact ⟨(unwritten_Write w hw hb _).1, (unwritten_Write w hw hb _).2.1⟩

theorem AddTask_handler_surfaces_errors_witness :
    (UserTaskHandler.AddTask (sampleEnv Faults.none) dbBobFull routedWriter
        ⟨"POST", "/tasks", bobTaskBody⟩).2.status = 500 ∧
    (UserTaskHandler.AddTask (sampleEnv Faults.none) dbBobFull routedWriter
        ⟨"POST", "/tasks", bobTaskBody⟩).2.body = "task limit reached for user bob\n" :=
  (AddTask_handler_surfaces_errors (sampleEnv Faults.none) dbBobFull routedWriter
    ⟨"POST", "/tasks", bobTaskBody⟩ ⟨"bob", "x"⟩ rfl rfl (by decide) (by decide)
    (by decide)).2.1 (limitReached "bob") (by decide)

end GoLang1
